import Mathlib

set_option linter.unusedVariables false

/-!
Verification of the dba-noise-meter signal-processing and overlay-compositing
core. Definitions are shallow embeddings of the JavaScript sources:
`src/utils/helpers.js`, `src/modules/constants.js`,
`src/modules/AudioAnalyzer.js` (audio pipeline, over the reals, with
JavaScript's -Infinity modelled as the bottom element of `WithBot Real`),
and the `CanvasOverlay` class of `src/utils/helpers.js` (compositor, over
the rationals, with canvas operations reified as a list of draw commands).
-/

namespace DBANoiseMeter

/-- Embeds the helper `clamp(value, min, max) = Math.max(min, Math.min(max, value))`
from `src/utils/helpers.js`. It is used by the audio pipeline at type
`WithBot Real` so that the JavaScript behaviour on a `-Infinity` input
(`Math.min(max, -Infinity) = -Infinity`, `Math.max(min, -Infinity) = min`)
is preserved. -/
def clamp {A : Type} [LinearOrder A] (value lo hi : A) : A :=
  max lo (min hi value)

/-- Embeds JavaScript `Math.round`: round half toward positive infinity,
which is floor of the argument plus one half. -/
def jsRound {A : Type} [LinearOrderedField A] [FloorRing A] (x : A) : ℤ :=
  ⌊x + 1 / 2⌋

namespace AUDIO_CONFIG

/-- Embeds `AUDIO_CONFIG.dbaSmoothing` from `src/modules/constants.js`. -/
def dbaSmoothing : ℝ := 0.92

/-- Embeds `AUDIO_CONFIG.dbaOffset` from `src/modules/constants.js`. -/
def dbaOffset : ℝ := 20

/-- Embeds `AUDIO_CONFIG.minDBA` from `src/modules/constants.js`. -/
def minDBA : ℝ := 20

/-- Embeds `AUDIO_CONFIG.maxDBA` from `src/modules/constants.js`. -/
def maxDBA : ℝ := 120

/-- Embeds `AUDIO_CONFIG.displayUpdateInterval` (milliseconds) from
`src/modules/constants.js`. -/
def displayUpdateInterval : ℤ := 500

end AUDIO_CONFIG

/-- One entry of `DBA_LEVELS` from `src/modules/constants.js`. The `max`
bound is a rational extended with a top element standing for the JavaScript
`Infinity` of the final entry; `cls` embeds the `class` property (a Lean
keyword). -/
structure DBALevel where
  max : WithTop ℚ
  text : String
  cls : String
  color : String
deriving DecidableEq

/-- Embeds the `DBA_LEVELS` table from `src/modules/constants.js`. -/
def DBA_LEVELS : List DBALevel :=
  [ ⟨40, "Rất yên tĩnh", "level-quiet", "#00ff88"⟩,
    ⟨60, "Yên tĩnh", "level-quiet", "#00ff88"⟩,
    ⟨70, "Vừa phải", "level-moderate", "#ffff00"⟩,
    ⟨85, "Ồn", "level-loud", "#ff9900"⟩,
    ⟨⊤, "Rất ồn - Có hại!", "level-very-loud", "#ff4444"⟩ ]

/-- The `{text, class, color}` record returned by `getDBALevel`. -/
structure LevelInfo where
  text : String
  cls : String
  color : String
deriving DecidableEq

/-- Embeds `AudioAnalyzer.getDBALevel(dba)`: a linear scan over `DBA_LEVELS`
returning the first entry with `dba < level.max`, falling back to the last
entry (`DBA_LEVELS[DBA_LEVELS.length - 1]`) when the scan finds nothing;
the fallback default given to `getLastD` is never consulted because the
list is nonempty. -/
def getDBALevel (dba : ℚ) : LevelInfo :=
  match DBA_LEVELS.find? (fun level => decide ((dba : WithTop ℚ) < level.max)) with
  | some level => ⟨level.text, level.cls, level.color⟩
  | none =>
      let last := DBA_LEVELS.getLastD ⟨⊤, "", "", ""⟩
      ⟨last.text, last.cls, last.color⟩

/-- One biquad stage built by `context.createIIRFilter(feedforward, feedback)`
in `AudioAnalyzer.createAWeightingFilters`. The decimal coefficient literals
of the source are exact rationals. -/
structure IIRFilter where
  feedforward : List ℚ
  feedback : List ℚ
deriving DecidableEq

/-- The two-stage 44.1 kHz coefficient set pushed by
`createAWeightingFilters` when `sampleRate === 44100` (and identically in
the low fallback branch). -/
def aWeighting44100 : List IIRFilter :=
  [ ⟨[0.95616638497, -1.31960414122, 0.36343775625],
     [1, -1.31861375911, 0.32059452332]⟩,
    ⟨[0.94317138580, -1.88634277160, 0.94317138580],
     [1, -1.88558607420, 0.88709946900]⟩ ]

/-- The two-stage 48 kHz coefficient set pushed by
`createAWeightingFilters` when `sampleRate === 48000` (and identically in
the high fallback branch). -/
def aWeighting48000 : List IIRFilter :=
  [ ⟨[0.96525096525, -1.34730163086, 0.38205066561],
     [1, -1.34730722798, 0.34905752979]⟩,
    ⟨[0.94696969696, -1.89393939393, 0.94696969696],
     [1, -1.89387049481, 0.89515976917]⟩ ]

/-- Embeds `AudioAnalyzer.createAWeightingFilters`: the branch on
`context.sampleRate` selecting which coefficient pairs are pushed onto the
filter list, from `src/modules/AudioAnalyzer.js` lines 68-133. -/
def createAWeightingFilters (sampleRate : ℚ) : List IIRFilter :=
  if sampleRate = 44100 then aWeighting44100
  else if sampleRate = 48000 then aWeighting48000
  else if sampleRate > 46000 then aWeighting48000
  else aWeighting44100

/-- Embeds the RMS computation of `calculateDBA` (lines 161-165 of
`src/modules/AudioAnalyzer.js`): square root of the mean of squares over
the A-weighted time-domain buffer. -/
noncomputable def rmsOf (buf : List ℝ) : ℝ :=
  Real.sqrt ((buf.map (fun s => s * s)).sum / buf.length)

/-- Embeds `20 * Math.log10(rms / 1) + AUDIO_CONFIG.dbaOffset` (line 170 of
`src/modules/AudioAnalyzer.js`) with JavaScript number semantics: when
`rms = 0`, `Math.log10` yields `-Infinity` and the whole affine expression
is `-Infinity`, modelled as the bottom element of `WithBot Real`. A
negative `rms` cannot occur because `rmsOf` is a square root. -/
noncomputable def dbaRaw (rms : ℝ) : WithBot ℝ :=
  if rms = 0 then ⊥ else ((20 * Real.logb 10 (rms / 1) + AUDIO_CONFIG.dbaOffset : ℝ) : WithBot ℝ)

/-- Embeds `clamp(dba, AUDIO_CONFIG.minDBA, AUDIO_CONFIG.maxDBA)` (line 173)
applied to the possibly `-Infinity` raw value. The result is always a real
number at least `minDBA` (proved in `clampedDBA_eq_clamp`), so the
`unbot' minDBA` conversion back to the reals never invents a value. -/
noncomputable def clampedDBA (rms : ℝ) : ℝ :=
  (clamp (dbaRaw rms) ((AUDIO_CONFIG.minDBA : ℝ) : WithBot ℝ)
      ((AUDIO_CONFIG.maxDBA : ℝ) : WithBot ℝ)).unbot' AUDIO_CONFIG.minDBA

/-- The `unbot'` default in `clampedDBA` is never consulted: the clamp of
the raw dBA value is the coercion of `clampedDBA`, and it lies in
`[minDBA, maxDBA]`. -/
theorem clampedDBA_eq_clamp (rms : ℝ) :
    clamp (dbaRaw rms) ((AUDIO_CONFIG.minDBA : ℝ) : WithBot ℝ)
        ((AUDIO_CONFIG.maxDBA : ℝ) : WithBot ℝ) = ((clampedDBA rms : ℝ) : WithBot ℝ)
      ∧ AUDIO_CONFIG.minDBA ≤ clampedDBA rms ∧ clampedDBA rms ≤ AUDIO_CONFIG.maxDBA := by
  unfold clampedDBA clamp
  rcases eq_or_ne rms 0 with h | h
  · rw [dbaRaw, if_pos h]
    rw [min_eq_right bot_le, max_eq_left bot_le]
    refine ⟨rfl, le_refl _, ?_⟩
    rw [WithBot.unbot'_coe, AUDIO_CONFIG.minDBA, AUDIO_CONFIG.maxDBA]; norm_num
  · rw [dbaRaw, if_neg h]
    rw [← WithBot.coe_min, ← WithBot.coe_max, WithBot.unbot'_coe]
    refine ⟨rfl, le_max_left _ _, ?_⟩
    rw [max_le_iff]
    constructor
    · rw [AUDIO_CONFIG.minDBA, AUDIO_CONFIG.maxDBA]; norm_num
    · exact min_le_left _ _

/-- Embeds the exponential-smoothing assignment of `calculateDBA`
(lines 176-177): `current * dbaSmoothing + clamped * (1 - dbaSmoothing)`. -/
noncomputable def smoothStep (current clamped : ℝ) : ℝ :=
  current * AUDIO_CONFIG.dbaSmoothing + clamped * (1 - AUDIO_CONFIG.dbaSmoothing)

/-- Iterating the smoothing assignment from a start value against a fixed
clamped reading, as done by successive `calculateDBA` calls on identical
RMS readings. -/
noncomputable def smoothSeq (start v : ℝ) : ℕ → ℝ
  | 0 => start
  | n + 1 => smoothStep (smoothSeq start v n) v

/-- The mutable fields of the `AudioAnalyzer` instance that the dBA pipeline
reads and writes. `initialized` models `this.analyser !== null` (and the
`dbaAnalyser`, set by the same `setup` call); the constructor state is
`⟨0, 0, 0, false⟩`. -/
structure AnalyzerState where
  currentDBA : ℝ
  displayDBA : ℤ
  lastDisplayUpdate : ℤ
  initialized : Bool

/-- Embeds `AudioAnalyzer.calculateDBA` (lines 147-180): the early
`return 0` when the analyser is missing, otherwise RMS over the buffer, the
dBA conversion, the clamp, the smoothing assignment to `currentDBA`, and the
rounded return value. The visualization-path read (line 151) has no effect
on the dBA value and is not modelled. -/
noncomputable def calculateDBA (st : AnalyzerState) (buf : List ℝ) : ℤ × AnalyzerState :=
  if st.initialized then
    let newDBA := smoothStep st.currentDBA (clampedDBA (rmsOf buf))
    (jsRound newDBA, { st with currentDBA := newDBA })
  else (0, st)

/-- Embeds `AudioAnalyzer.getDisplayDBA` (lines 186-193): refresh the cached
`displayDBA` when `lastDisplayUpdate` is falsy (zero) or the throttle
interval has elapsed, then return `displayDBA || Math.round(currentDBA)`,
where the JavaScript or-expression falls through to the rounded live value
exactly when the cache is zero. -/
noncomputable def getDisplayDBA (st : AnalyzerState) (now : ℤ) : ℤ × AnalyzerState :=
  let st' :=
    if st.lastDisplayUpdate = 0 ∨ AUDIO_CONFIG.displayUpdateInterval ≤ now - st.lastDisplayUpdate
    then { st with displayDBA := jsRound st.currentDBA, lastDisplayUpdate := now }
    else st
  (if st'.displayDBA = 0 then jsRound st'.currentDBA else st'.displayDBA, st')

namespace OVERLAY_CONFIG

/-- Embeds `OVERLAY_CONFIG.baseWidthPortrait` from `src/modules/constants.js`. -/
def baseWidthPortrait : ℚ := 720

/-- Embeds `OVERLAY_CONFIG.baseWidthLandscape` from `src/modules/constants.js`. -/
def baseWidthLandscape : ℚ := 1920

/-- Embeds `OVERLAY_CONFIG.minScale` from `src/modules/constants.js`. -/
def minScale : ℚ := 0.5

namespace dbaBox

/-- Embeds `OVERLAY_CONFIG.dbaBox.widthPortrait`. -/
def widthPortrait : ℚ := 120

/-- Embeds `OVERLAY_CONFIG.dbaBox.widthLandscape`. -/
def widthLandscape : ℚ := 160

/-- Embeds `OVERLAY_CONFIG.dbaBox.heightPortrait`. -/
def heightPortrait : ℚ := 120

/-- Embeds `OVERLAY_CONFIG.dbaBox.heightLandscape`. -/
def heightLandscape : ℚ := 140

/-- Embeds `OVERLAY_CONFIG.dbaBox.borderRadius`. -/
def borderRadius : ℚ := 15

/-- Embeds `OVERLAY_CONFIG.dbaBox.background`. -/
def background : String := "rgba(0, 0, 0, 0.8)"

/-- Embeds `OVERLAY_CONFIG.dbaBox.borderColor`. -/
def borderColor : String := "rgba(255, 255, 255, 0.25)"

/-- Embeds `OVERLAY_CONFIG.dbaBox.borderWidth`. -/
def borderWidth : ℚ := 2

end dbaBox

namespace infoBox

/-- Embeds `OVERLAY_CONFIG.infoBox.widthPortrait`. -/
def widthPortrait : ℚ := 200

/-- Embeds `OVERLAY_CONFIG.infoBox.widthLandscape`. -/
def widthLandscape : ℚ := 280

/-- Embeds `OVERLAY_CONFIG.infoBox.heightPortrait`. -/
def heightPortrait : ℚ := 50

/-- Embeds `OVERLAY_CONFIG.infoBox.heightLandscape`. -/
def heightLandscape : ℚ := 70

/-- Embeds `OVERLAY_CONFIG.infoBox.borderRadius`. -/
def borderRadius : ℚ := 12

end infoBox

namespace recIndicator

/-- Embeds `OVERLAY_CONFIG.recIndicator.widthPortrait`. -/
def widthPortrait : ℚ := 60

/-- Embeds `OVERLAY_CONFIG.recIndicator.widthLandscape`. -/
def widthLandscape : ℚ := 90

/-- Embeds `OVERLAY_CONFIG.recIndicator.heightPortrait`. -/
def heightPortrait : ℚ := 24

/-- Embeds `OVERLAY_CONFIG.recIndicator.heightLandscape`. -/
def heightLandscape : ℚ := 32

/-- Embeds `OVERLAY_CONFIG.recIndicator.background`. -/
def background : String := "rgba(255, 0, 0, 0.9)"

end recIndicator

namespace miniVisualizer

/-- Embeds `OVERLAY_CONFIG.miniVisualizer.heightPortrait`. -/
def heightPortrait : ℚ := 60

/-- Embeds `OVERLAY_CONFIG.miniVisualizer.heightLandscape`. -/
def heightLandscape : ℚ := 100

/-- Embeds `OVERLAY_CONFIG.miniVisualizer.bottomOffsetPortrait`. -/
def bottomOffsetPortrait : ℚ := 80

/-- Embeds `OVERLAY_CONFIG.miniVisualizer.bottomOffsetLandscape`. -/
def bottomOffsetLandscape : ℚ := 100

/-- Embeds `OVERLAY_CONFIG.miniVisualizer.paddingRatio`. -/
def paddingRatio : ℚ := 0.028

/-- Embeds `OVERLAY_CONFIG.miniVisualizer.minPadding`. -/
def minPadding : ℚ := 20

/-- Embeds `OVERLAY_CONFIG.miniVisualizer.maxWidthRatio`. -/
def maxWidthRatio : ℚ := 0.5

/-- Embeds `OVERLAY_CONFIG.miniVisualizer.maxWidth`. -/
def maxWidth : ℚ := 180

/-- Embeds `OVERLAY_CONFIG.miniVisualizer.borderRadius`. -/
def borderRadius : ℚ := 10

/-- Embeds `OVERLAY_CONFIG.miniVisualizer.background`. -/
def background : String := "rgba(0, 0, 0, 0.7)"

/-- Embeds `OVERLAY_CONFIG.miniVisualizer.innerPadding`. -/
def innerPadding : ℚ := 6

end miniVisualizer

namespace watermark

/-- Embeds `OVERLAY_CONFIG.watermark.text`. -/
def text : String := "DBA Noise Meter"

/-- Embeds `OVERLAY_CONFIG.watermark.color`. -/
def color : String := "rgba(255, 255, 255, 0.4)"

/-- Embeds `OVERLAY_CONFIG.watermark.bottomOffset`. -/
def bottomOffset : ℚ := 8

end watermark

end OVERLAY_CONFIG

namespace VISUALIZER_CONFIG

/-- Embeds `VISUALIZER_CONFIG.barCount` from `src/modules/constants.js`. -/
def barCount : ℕ := 64

/-- Embeds `VISUALIZER_CONFIG.barCountMobile` from `src/modules/constants.js`. -/
def barCountMobile : ℕ := 32

/-- Embeds `VISUALIZER_CONFIG.waveformSamples` from `src/modules/constants.js`. -/
def waveformSamples : ℕ := 256

end VISUALIZER_CONFIG

/-- A canvas fill or stroke style as set before a drawing call. Literal CSS
color strings from the configuration appear as `raw`; the result of the
`hexToRgba` helper is kept symbolic as `hexA`, and the four-stop bar
gradient of the mini visualizer as `barGradient` with its two anchor
ordinates. No claim inspects the rendered color string itself. -/
inductive FillStyle
  | raw (s : String)
  | hexA (hex : String) (alpha : ℚ)
  | barGradient (yLow yHigh : ℚ)
deriving DecidableEq

/-- Text passed to `ctx.fillText`: either a string, or the number that
JavaScript would stringify (the rounded dBA value). -/
inductive OverlayText
  | str (s : String)
  | num (n : ℤ)
deriving DecidableEq

/-- One geometry-bearing canvas operation issued by the overlay compositor.
Pure context-state settings (font name, text alignment, shadow) are elided;
every fill/stroke of a shape or text is recorded with its geometry, its
style, and for text its content. -/
inductive DrawCmd
  | fillRoundRect (x y w h r : ℚ) (style : FillStyle)
  | strokeRoundRect (x y w h r lineWidth : ℚ) (style : FillStyle)
  | fillRect (x y w h : ℚ) (style : FillStyle)
  | fillText (text : OverlayText) (x y : ℚ) (style : FillStyle)
  | fillCircle (x y r : ℚ) (style : FillStyle)
  | strokePolyline (points : List (ℚ × ℚ)) (lineWidth : ℚ) (style : FillStyle)
deriving DecidableEq

/-- Embeds the `hexToRgba(hex, alpha)` helper of `src/utils/helpers.js` at
the level of the symbolic style type: the conversion itself is kept
abstract because no claim depends on the produced `rgba(...)` string. -/
def hexToRgba (hex : String) (alpha : ℚ) : FillStyle :=
  FillStyle.hexA hex alpha

/-- The per-draw-call overlay data object assembled by
`DBNoiseMeter.getOverlayData` in `src/app.js` and consumed by
`CanvasOverlay.draw`. Coordinates are the strings stored by the geolocation
manager or `none` for JavaScript `null`; the spectrum and waveform buffers
are byte lists or `none` when absent. -/
structure OverlayData where
  currentDBA : ℚ
  dbaColor : String
  level : LevelInfo
  latitude : Option String
  longitude : Option String
  isRecording : Bool
  frequencyData : Option (List ℕ)
  timeData : Option (List ℕ)

/-- The `{scale, fontSize, padding}` record returned by
`CanvasOverlay.calculateScale`. -/
structure ScaleInfo where
  scale : ℚ
  fontSize : ℚ
  padding : ℚ

/-- The `_lastInfoBox` rectangle stored by `drawInfoBox` for the
recording-indicator step. -/
structure InfoBoxRect where
  x : ℚ
  y : ℚ
  width : ℚ
  height : ℚ

/-- The result of the `drawInfoBox` step: its commands plus the
`_lastInfoBox` and `_lastDbaX` values it stores on the instance, threaded
explicitly to the recording-indicator step. -/
structure InfoBoxResult where
  cmds : List DrawCmd
  box : InfoBoxRect
  dbaX : ℚ

namespace CanvasOverlay

/-- Embeds `CanvasOverlay.calculateScale` (lines 269-277 of the overlay
module in `src/utils/helpers.js`). The `height` argument is accepted and
ignored exactly as in the source. -/
def calculateScale (width height : ℚ) (isPortrait : Bool) : ScaleInfo :=
  let baseWidth := if isPortrait then OVERLAY_CONFIG.baseWidthPortrait
    else OVERLAY_CONFIG.baseWidthLandscape
  let baseScale := width / baseWidth
  let scale := max OVERLAY_CONFIG.minScale baseScale
  ⟨scale, max 14 (22 * scale), max 20 (30 * scale)⟩

/-- Embeds `CanvasOverlay.drawLevelPill`: the pill background via
`hexToRgba(data.dbaColor, 0.3)` and the level label text. The
`ctx.measureText` width of the label is supplied by the abstract `measure`
oracle. -/
def drawLevelPill (boxX boxY boxWidth boxHeight scale fontSize : ℚ)
    (data : OverlayData) (measure : String → ℚ) : List DrawCmd :=
  let levelText := data.level.text
  let levelWidth := min (measure levelText + 20 * scale) (boxWidth - 16 * scale)
  let levelHeight := 22 * scale
  let levelX := boxX + (boxWidth - levelWidth) / 2
  let levelY := boxY + boxHeight * 0.72
  [ DrawCmd.fillRoundRect levelX levelY levelWidth levelHeight (10 * scale)
      (hexToRgba data.dbaColor 0.3),
    DrawCmd.fillText (OverlayText.str levelText) (boxX + boxWidth / 2)
      (levelY + levelHeight / 2) (FillStyle.raw data.dbaColor) ]

/-- Embeds `CanvasOverlay.drawDBABox`: background, border, glowing numeric
dBA value, the small `dBA` label, and the level pill. The unused
`fontSize`-dependent font strings are elided; geometry and text content are
kept. -/
def drawDBABox (width height scale fontSize padding : ℚ) (isPortrait : Bool)
    (data : OverlayData) (measure : String → ℚ) : List DrawCmd :=
  let boxWidth := if isPortrait then OVERLAY_CONFIG.dbaBox.widthPortrait * scale
    else OVERLAY_CONFIG.dbaBox.widthLandscape * scale
  let boxHeight := if isPortrait then OVERLAY_CONFIG.dbaBox.heightPortrait * scale
    else OVERLAY_CONFIG.dbaBox.heightLandscape * scale
  let x := width - boxWidth - padding
  let y := padding
  [ DrawCmd.fillRoundRect x y boxWidth boxHeight
      (OVERLAY_CONFIG.dbaBox.borderRadius * scale) (FillStyle.raw OVERLAY_CONFIG.dbaBox.background),
    DrawCmd.strokeRoundRect x y boxWidth boxHeight
      (OVERLAY_CONFIG.dbaBox.borderRadius * scale) (OVERLAY_CONFIG.dbaBox.borderWidth * scale)
      (FillStyle.raw OVERLAY_CONFIG.dbaBox.borderColor),
    DrawCmd.fillText (OverlayText.num (jsRound data.currentDBA)) (x + boxWidth / 2)
      (y + boxHeight * 0.28) (FillStyle.raw data.dbaColor),
    DrawCmd.fillText (OverlayText.str "dBA") (x + boxWidth / 2) (y + boxHeight * 0.52)
      (FillStyle.raw "rgba(255, 255, 255, 0.85)") ]
  ++ drawLevelPill x y boxWidth boxHeight scale fontSize data measure

/-- Embeds the location-string selection of `drawInfoBox` (lines 388-390):
the coordinate pair when both are present (JavaScript truthy), otherwise
the literal not-available marker. -/
def locationStr (latitude longitude : Option String) : String :=
  match latitude, longitude with
  | some la, some lo => "⌖ " ++ la ++ ", " ++ lo
  | _, _ => "⌖ N/A"

/-- Embeds `CanvasOverlay.drawInfoBox` (lines 349-394): background, border,
the clock line with the supplied date string (the `new Date()` read is a
parameter), and the location line; also returns the `_lastInfoBox` and
`_lastDbaX` values the method stores for the recording-indicator step. -/
def drawInfoBox (width height scale fontSize padding : ℚ) (isPortrait : Bool)
    (data : OverlayData) (dateStr : String) : InfoBoxResult :=
  let dbaBoxWidth := if isPortrait then OVERLAY_CONFIG.dbaBox.widthPortrait * scale
    else OVERLAY_CONFIG.dbaBox.widthLandscape * scale
  let boxWidth := if isPortrait
    then min (OVERLAY_CONFIG.infoBox.widthPortrait * scale) (width - dbaBoxWidth - padding * 3)
    else OVERLAY_CONFIG.infoBox.widthLandscape * scale
  let boxHeight := if isPortrait then OVERLAY_CONFIG.infoBox.heightPortrait * scale
    else OVERLAY_CONFIG.infoBox.heightLandscape * scale
  let x := padding
  let y := padding
  { cmds :=
      [ DrawCmd.fillRoundRect x y boxWidth boxHeight
          (OVERLAY_CONFIG.infoBox.borderRadius * scale)
          (FillStyle.raw OVERLAY_CONFIG.dbaBox.background),
        DrawCmd.strokeRoundRect x y boxWidth boxHeight
          (OVERLAY_CONFIG.infoBox.borderRadius * scale) (OVERLAY_CONFIG.dbaBox.borderWidth * scale)
          (FillStyle.raw OVERLAY_CONFIG.dbaBox.borderColor),
        DrawCmd.fillText (OverlayText.str ("⏱ " ++ dateStr)) (x + 8 * scale)
          (y + boxHeight * 0.35) (FillStyle.raw "#ffffff"),
        DrawCmd.fillText (OverlayText.str (locationStr data.latitude data.longitude))
          (x + 8 * scale) (y + boxHeight * 0.7) (FillStyle.raw "#aaaaaa") ],
    box := ⟨x, y, boxWidth, boxHeight⟩,
    dbaX := width - dbaBoxWidth - padding }

/-- Embeds `CanvasOverlay.drawRecordingIndicator` (lines 400-432). The
`_lastInfoBox` and `_lastDbaX` arguments are the values stored by
`drawInfoBox`, which always runs earlier within `draw`, so the JavaScript
`||` fallback defaults for a missing store are unreachable and not
modelled. When the badge would collide with the dBA box it returns no
commands at all. -/
def drawRecordingIndicator (width height scale fontSize padding : ℚ)
    (isPortrait : Bool) (infoBox : InfoBoxRect) (dbaX : ℚ) : List DrawCmd :=
  let recWidth := if isPortrait then OVERLAY_CONFIG.recIndicator.widthPortrait * scale
    else OVERLAY_CONFIG.recIndicator.widthLandscape * scale
  let recHeight := if isPortrait then OVERLAY_CONFIG.recIndicator.heightPortrait * scale
    else OVERLAY_CONFIG.recIndicator.heightLandscape * scale
  let recX := infoBox.x + infoBox.width + 10 * scale
  let recY := infoBox.y + (infoBox.height - recHeight) / 2
  if dbaX - 5 * scale ≤ recX + recWidth then []
  else
    [ DrawCmd.fillRoundRect recX recY recWidth recHeight (recHeight / 2)
        (FillStyle.raw OVERLAY_CONFIG.recIndicator.background),
      DrawCmd.fillCircle (recX + recWidth * 0.3) (recY + recHeight / 2) (4 * scale)
        (FillStyle.raw "#ffffff"),
      DrawCmd.fillText (OverlayText.str "REC") (recX + recWidth * 0.65)
        (recY + recHeight / 2) (FillStyle.raw "#ffffff") ]

/-- Embeds `CanvasOverlay.drawMiniVisualizer` (lines 438-509): nothing at
all when either buffer is absent; otherwise the clipped background, one
gradient bar per bin, and the overlaid waveform polyline in the current
level color. `Math.floor` indexing on byte lists becomes natural-number
division; `save`, `clip` and `restore` are context-state operations and are
elided. -/
def drawMiniVisualizer (width height scale padding : ℚ) (isPortrait : Bool)
    (data : OverlayData) : List DrawCmd :=
  match data.frequencyData, data.timeData with
  | some freq, some time =>
    let vizHeight := if isPortrait then OVERLAY_CONFIG.miniVisualizer.heightPortrait * scale
      else OVERLAY_CONFIG.miniVisualizer.heightLandscape * scale
    let vizY := height - vizHeight - (if isPortrait
      then OVERLAY_CONFIG.miniVisualizer.bottomOffsetPortrait * scale
      else OVERLAY_CONFIG.miniVisualizer.bottomOffsetLandscape * scale)
    let vizPadding := max OVERLAY_CONFIG.miniVisualizer.minPadding
      (width * OVERLAY_CONFIG.miniVisualizer.paddingRatio)
    let vizX := vizPadding
    let vizWidth := min (width * OVERLAY_CONFIG.miniVisualizer.maxWidthRatio)
      (OVERLAY_CONFIG.miniVisualizer.maxWidth * scale)
    let barCount := if isPortrait then VISUALIZER_CONFIG.barCountMobile
      else VISUALIZER_CONFIG.barCount
    let innerPadding := OVERLAY_CONFIG.miniVisualizer.innerPadding * scale
    let totalBarSpace := vizWidth - innerPadding * 2
    let barWidth := totalBarSpace / barCount - 1
    let bars := (List.range barCount).map (fun i =>
      let dataIndex := i * freq.length / barCount
      let maxBarHeight := vizHeight - innerPadding * 2
      let barHeight := max 2 ((freq.getD dataIndex 0 : ℚ) / 255 * maxBarHeight)
      let barX := vizX + innerPadding + i * (barWidth + 1)
      let barY := vizY + vizHeight - innerPadding - barHeight
      DrawCmd.fillRect barX barY (barWidth - 1) barHeight
        (FillStyle.barGradient (barY + barHeight) barY))
    let waveformSamples := min time.length VISUALIZER_CONFIG.waveformSamples
    let sliceWidth := vizWidth / waveformSamples
    let pts := (List.range waveformSamples).map (fun i =>
      let sampleIndex := i * time.length / waveformSamples
      let v := (time.getD sampleIndex 0 : ℚ) / 128
      (vizX + i * sliceWidth, vizY + vizHeight / 2 + (v - 1) * vizHeight * 0.4))
    DrawCmd.fillRoundRect vizX vizY vizWidth vizHeight
        (OVERLAY_CONFIG.miniVisualizer.borderRadius * scale)
        (FillStyle.raw OVERLAY_CONFIG.miniVisualizer.background)
      :: bars ++ [DrawCmd.strokePolyline pts (2 * scale) (FillStyle.raw data.dbaColor)]
  | _, _ => []

/-- Embeds `CanvasOverlay.drawWatermark` (lines 515-523). -/
def drawWatermark (width height scale fontSize : ℚ) : List DrawCmd :=
  [ DrawCmd.fillText (OverlayText.str OVERLAY_CONFIG.watermark.text) (width / 2)
      (height - OVERLAY_CONFIG.watermark.bottomOffset * scale)
      (FillStyle.raw OVERLAY_CONFIG.watermark.color) ]

/-- Embeds `CanvasOverlay.draw` (lines 249-263): derive orientation from
the surface, compute the scale record, then emit the dBA box, the info box,
the recording indicator only while recording, the mini visualizer, and the
watermark, in that order. -/
def draw (width height : ℚ) (data : OverlayData) (dateStr : String)
    (measure : String → ℚ) : List DrawCmd :=
  let isPortrait := decide (width < height)
  let si := calculateScale width height isPortrait
  let info := drawInfoBox width height si.scale si.fontSize si.padding isPortrait data dateStr
  drawDBABox width height si.scale si.fontSize si.padding isPortrait data measure
    ++ info.cmds
    ++ (if data.isRecording then
          drawRecordingIndicator width height si.scale si.fontSize si.padding isPortrait
            info.box info.dbaX
        else [])
    ++ drawMiniVisualizer width height si.scale si.padding isPortrait data
    ++ drawWatermark width height si.scale si.fontSize

end CanvasOverlay

/-- The character of a single decimal digit. -/
def digitChar (d : ℕ) : Char := Char.ofNat (48 + d)

/-- Little-endian decimal digits of a natural number, with an explicit fuel
argument (one digit is produced per unit of fuel) so that the definition is
structurally recursive and reduces inside the kernel. Calling it with fuel
equal to the number itself always suffices. -/
def natDigitsAux : ℕ → ℕ → List ℕ
  | 0, _ => []
  | fuel + 1, n => if n = 0 then [] else n % 10 :: natDigitsAux fuel (n / 10)

/-- Decimal rendering of a natural number, as the ECMAScript ToString of an
integer: most significant digit first, and the single digit `0` for zero. -/
def natToString (n : ℕ) : String :=
  if n = 0 then "0" else String.mk ((natDigitsAux n n).reverse.map digitChar)

/-- Pads a rendered digit string on the left with zeros up to the requested
number of digits. -/
def padZeros (d : ℕ) (s : String) : String :=
  String.mk (List.replicate (d - s.length) '0' ++ s.data)

/-- Embeds `Number.prototype.toFixed(digits)` as used by the geolocation
manager: per the ECMAScript ToFixed algorithm, the integer `n` closest to
`x * 10 ^ digits` (larger of the two on a tie) is rendered with a decimal
point inserted `digits` places from the right. -/
def toFixed (digits : ℕ) (x : ℚ) : String :=
  let scaled : ℤ := ⌊x * 10 ^ digits + 1 / 2⌋
  let a := scaled.natAbs
  let intPart := a / 10 ^ digits
  let fracPart := a % 10 ^ digits
  (if scaled < 0 then "-" else "") ++ natToString intPart ++
    (if digits = 0 then "" else "." ++ padZeros digits (natToString fracPart))

namespace GeolocationManager

/-- Embeds the coordinate formatting of `GeolocationManager.handleSuccess`
(and identically its `watchPosition` callback): the received position
coordinates are stored as `toFixed(6)` strings. -/
def handleSuccess (latitude longitude : ℚ) : Option String × Option String :=
  (some (toFixed 6 latitude), some (toFixed 6 longitude))

end GeolocationManager

/-- The number of digits after the (last) decimal point of a rendered
string: the length of the maximal trailing run of characters not containing
a point, or zero when the string has no point at all. -/
def fracDigits (s : String) : ℕ :=
  if '.' ∈ s.data then (s.data.reverse.takeWhile (fun c => c ≠ '.')).length else 0

/-- C3: filter-cascade selection is deterministic and total over sample
rates: `createAWeightingFilters` maps 44100 to the 44.1 kHz two-stage set,
48000 to the 48 kHz set, and every rate to the 48 kHz set exactly when the
rate exceeds 46000 (the two special-cased rates land on the same side as
their fallback bucket), so the result is always one of the two distinct
calibrated sets and is always a two-stage (hence non-empty) cascade. -/
theorem createAWeightingFilters_total (rate : ℚ) :
    (createAWeightingFilters rate).length = 2
    ∧ aWeighting44100 ≠ aWeighting48000
    ∧ createAWeightingFilters 44100 = aWeighting44100
    ∧ createAWeightingFilters 48000 = aWeighting48000
    ∧ createAWeightingFilters rate
        = (if 46000 < rate then aWeighting48000 else aWeighting44100) := by
  have hne : aWeighting44100 ≠ aWeighting48000 := by
    intro h
    simp only [aWeighting44100, aWeighting48000, List.cons.injEq, IIRFilter.mk.injEq] at h
    have := h.1.1
    norm_num at this
  have hsel : createAWeightingFilters rate
      = (if 46000 < rate then aWeighting48000 else aWeighting44100) := by
    unfold createAWeightingFilters
    rcases eq_or_ne rate 44100 with h44 | h44
    · subst h44; norm_num
    · rcases eq_or_ne rate 48000 with h48 | h48
      · subst h48; norm_num
      · simp [h44, h48]
  refine ⟨?_, hne, by norm_num [createAWeightingFilters], by norm_num [createAWeightingFilters], hsel⟩
  rw [hsel]
  rcases lt_or_le 46000 rate with h | h
  · rw [if_pos h]; rfl
  · rw [if_neg (not_lt.mpr h)]; rfl

/-- C7: scale floors of the compositor. For any surface of positive width,
`calculateScale` returns exactly `max(minScale, width / baseWidth)`, which
never drops below the configured minimum scale of one half; the derived
font size never drops below 14 and the padding never below 20; and once the
width reaches the base width all three grow linearly in the width. -/
theorem calculateScale_floors (W H : ℚ) (isPortrait : Bool) (hW : 0 < W) :
    (CanvasOverlay.calculateScale W H isPortrait).scale
      = max OVERLAY_CONFIG.minScale
          (W / (if isPortrait then OVERLAY_CONFIG.baseWidthPortrait
                else OVERLAY_CONFIG.baseWidthLandscape))
    ∧ OVERLAY_CONFIG.minScale ≤ (CanvasOverlay.calculateScale W H isPortrait).scale
    ∧ 14 ≤ (CanvasOverlay.calculateScale W H isPortrait).fontSize
    ∧ 20 ≤ (CanvasOverlay.calculateScale W H isPortrait).padding
    ∧ ((if isPortrait then OVERLAY_CONFIG.baseWidthPortrait
          else OVERLAY_CONFIG.baseWidthLandscape) ≤ W →
        (CanvasOverlay.calculateScale W H isPortrait).scale
            = W / (if isPortrait then OVERLAY_CONFIG.baseWidthPortrait
                  else OVERLAY_CONFIG.baseWidthLandscape)
        ∧ (CanvasOverlay.calculateScale W H isPortrait).fontSize
            = 22 * (W / (if isPortrait then OVERLAY_CONFIG.baseWidthPortrait
                  else OVERLAY_CONFIG.baseWidthLandscape))
        ∧ (CanvasOverlay.calculateScale W H isPortrait).padding
            = 30 * (W / (if isPortrait then OVERLAY_CONFIG.baseWidthPortrait
                  else OVERLAY_CONFIG.baseWidthLandscape))) := by
  unfold CanvasOverlay.calculateScale
  cases isPortrait <;>
    simp only [if_true, if_false, Bool.false_eq_true, OVERLAY_CONFIG.baseWidthPortrait,
      OVERLAY_CONFIG.baseWidthLandscape, OVERLAY_CONFIG.minScale] <;>
    refine ⟨by trivial, le_max_left _ _, le_max_left _ _, le_max_left _ _, fun hbase => ?_⟩
  · have hone : (1 : ℚ) ≤ W / 1920 := by
      rw [le_div_iff (by norm_num : (0:ℚ) < 1920)]; linarith
    have hs : max (0.5 : ℚ) (W / 1920) = W / 1920 := max_eq_right (by linarith)
    refine ⟨hs, ?_, ?_⟩
    · rw [hs, max_eq_right]; nlinarith
    · rw [hs, max_eq_right]; nlinarith
  · have hone : (1 : ℚ) ≤ W / 720 := by
      rw [le_div_iff (by norm_num : (0:ℚ) < 720)]; linarith
    have hs : max (0.5 : ℚ) (W / 720) = W / 720 := max_eq_right (by linarith)
    refine ⟨hs, ?_, ?_⟩
    · rw [hs, max_eq_right]; nlinarith
    · rw [hs, max_eq_right]; nlinarith

/-- Closed witness for `calculateScale_floors` at a concrete small
landscape surface. -/
theorem calculateScale_floors_witness :
    14 ≤ (CanvasOverlay.calculateScale 100 50 false).fontSize :=
  (calculateScale_floors 100 50 false (by norm_num)).2.2.1

/-- C2: silence edge case. On an initialized analyser, whenever the RMS over
the A-weighted buffer is zero, the raw dBA value is `-Infinity` (bottom),
the clamp maps it to the configured minimum of 20, and both the updated
`currentDBA` and the returned rounded value are the finite real smoothing
of the previous value against that minimum — no NaN or `-Infinity`
escapes. -/
theorem calculateDBA_silence (st : AnalyzerState) (buf : List ℝ)
    (hinit : st.initialized = true) (hrms : rmsOf buf = 0) :
    dbaRaw (rmsOf buf) = ⊥
    ∧ clampedDBA (rmsOf buf) = AUDIO_CONFIG.minDBA
    ∧ (calculateDBA st buf).2.currentDBA
        = st.currentDBA * AUDIO_CONFIG.dbaSmoothing
          + AUDIO_CONFIG.minDBA * (1 - AUDIO_CONFIG.dbaSmoothing)
    ∧ (calculateDBA st buf).1
        = jsRound (st.currentDBA * AUDIO_CONFIG.dbaSmoothing
          + AUDIO_CONFIG.minDBA * (1 - AUDIO_CONFIG.dbaSmoothing)) := by
  have hraw : dbaRaw (rmsOf buf) = ⊥ := by rw [dbaRaw, if_pos hrms]
  have hclamped : clampedDBA (rmsOf buf) = AUDIO_CONFIG.minDBA := by
    rw [clampedDBA, clamp, hraw, min_eq_right bot_le, max_eq_left bot_le,
      WithBot.unbot'_coe]
  refine ⟨hraw, hclamped, ?_, ?_⟩ <;>
    simp [calculateDBA, hinit, smoothStep, hclamped]

/-- Closed witness for `calculateDBA_silence` on the all-zero one-sample
buffer and a running value of 5. -/
theorem calculateDBA_silence_witness :
    clampedDBA (rmsOf [(0 : ℝ)]) = AUDIO_CONFIG.minDBA :=
  (calculateDBA_silence ⟨5, 0, 0, true⟩ [0] rfl (by simp [rmsOf])).2.1

/-- C4: monotone convergence of the exponential smoother. For a fixed
clamped reading in the configured range and any start value, the iterated
smoothing assignment strictly increases toward the reading without ever
reaching or overshooting it when starting below, strictly decreases
symmetrically when starting above, and is constant when starting exactly on
it. -/
theorem smoothSeq_monotone (v start : ℝ)
    (hv1 : AUDIO_CONFIG.minDBA ≤ v) (hv2 : v ≤ AUDIO_CONFIG.maxDBA) :
    (start < v → ∀ n, smoothSeq start v n < smoothSeq start v (n + 1)
        ∧ smoothSeq start v n < v)
    ∧ (v < start → ∀ n, smoothSeq start v (n + 1) < smoothSeq start v n
        ∧ v < smoothSeq start v n)
    ∧ (start = v → ∀ n, smoothSeq start v n = v) := by
  have hstep_lt : ∀ c, c < v → c < smoothStep c v ∧ smoothStep c v < v := by
    intro c hc
    unfold smoothStep AUDIO_CONFIG.dbaSmoothing
    constructor <;> nlinarith
  have hstep_gt : ∀ c, v < c → smoothStep c v < c ∧ v < smoothStep c v := by
    intro c hc
    unfold smoothStep AUDIO_CONFIG.dbaSmoothing
    constructor <;> nlinarith
  refine ⟨fun hlt => ?_, fun hgt => ?_, fun heq => ?_⟩
  · have hbelow : ∀ n, smoothSeq start v n < v := by
      intro n
      induction n with
      | zero => exact hlt
      | succ k ih => exact ((hstep_lt _ ih).2)
    exact fun n => ⟨(hstep_lt _ (hbelow n)).1, hbelow n⟩
  · have habove : ∀ n, v < smoothSeq start v n := by
      intro n
      induction n with
      | zero => exact hgt
      | succ k ih => exact ((hstep_gt _ ih).2)
    exact fun n => ⟨(hstep_gt _ (habove n)).1, habove n⟩
  · intro n
    induction n with
    | zero => exact heq
    | succ k ih =>
        show smoothStep (smoothSeq start v k) v = v
        rw [ih]
        unfold smoothStep
        ring

/-- Closed witness for `smoothSeq_monotone`: starting at 0 against a fixed
reading of 100, the first step strictly increases and stays below 100. -/
theorem smoothSeq_monotone_witness :
    smoothSeq 0 100 0 < smoothSeq 0 100 1 ∧ smoothSeq 0 100 0 < 100 :=
  ((smoothSeq_monotone 100 0 (by norm_num [AUDIO_CONFIG.minDBA])
    (by norm_num [AUDIO_CONFIG.maxDBA])).1 (by norm_num)) 0

/-- C10: display-throttle zero-cache edge case. When the throttle has not
elapsed (and the last update stamp is nonzero), `getDisplayDBA` returns the
cached `displayDBA` exactly when that cache is nonzero, and falls back to
the rounded live `currentDBA` whenever the cache is zero; when the
refresh condition does hold it returns the freshly rounded live value
either way. -/
theorem getDisplayDBA_zero_cache (st : AnalyzerState) (now : ℤ) :
    (¬ (st.lastDisplayUpdate = 0
          ∨ AUDIO_CONFIG.displayUpdateInterval ≤ now - st.lastDisplayUpdate) →
        (st.displayDBA = 0 → (getDisplayDBA st now).1 = jsRound st.currentDBA)
        ∧ (st.displayDBA ≠ 0 → (getDisplayDBA st now).1 = st.displayDBA)
        ∧ (getDisplayDBA st now).2 = st)
    ∧ ((st.lastDisplayUpdate = 0
          ∨ AUDIO_CONFIG.displayUpdateInterval ≤ now - st.lastDisplayUpdate) →
        (getDisplayDBA st now).1 = jsRound st.currentDBA) := by
  constructor
  · intro hcond
    rw [getDisplayDBA]
    simp only [if_neg hcond]
    refine ⟨fun h0 => ?_, fun h0 => ?_, by trivial⟩
    · rw [if_pos h0]
    · rw [if_neg h0]
  · intro hcond
    rw [getDisplayDBA]
    simp only [if_pos hcond]
    rcases eq_or_ne (jsRound st.currentDBA) 0 with h | h
    · simp [h]
    · simp [h]

/-- Closed witness for `getDisplayDBA_zero_cache`: a zero cache with a live
value of 50 and a throttle that has not elapsed still yields the rounded
live value. -/
theorem getDisplayDBA_zero_cache_witness :
    (getDisplayDBA ⟨50, 0, 100, true⟩ 101).1 = jsRound (50 : ℝ) :=
  ((getDisplayDBA_zero_cache ⟨50, 0, 100, true⟩ 101).1
    (by norm_num [AUDIO_CONFIG.displayUpdateInterval])).1 rfl

/-- C1: classification is total with strict-less-than semantics. Every dBA
value is mapped by `getDBALevel` to the first entry of `DBA_LEVELS` whose
bound strictly exceeds it (so some entry is always returned, the final
bound being infinity), and an input exactly equal to one of the finite
upper bounds 40, 60, 70, 85 resolves to the following band, while values
of 120 and above still land in the final catch-all band. -/
theorem getDBALevel_first_strict :
    (∀ dba : ℚ, ∃ i : Fin DBA_LEVELS.length,
        getDBALevel dba
            = ⟨(DBA_LEVELS.get i).text, (DBA_LEVELS.get i).cls, (DBA_LEVELS.get i).color⟩
        ∧ (dba : WithTop ℚ) < (DBA_LEVELS.get i).max
        ∧ ∀ j : Fin DBA_LEVELS.length, (j : ℕ) < (i : ℕ)
            → ¬ (dba : WithTop ℚ) < (DBA_LEVELS.get j).max)
    ∧ getDBALevel 40 = ⟨"Yên tĩnh", "level-quiet", "#00ff88"⟩
    ∧ getDBALevel 60 = ⟨"Vừa phải", "level-moderate", "#ffff00"⟩
    ∧ getDBALevel 70 = ⟨"Ồn", "level-loud", "#ff9900"⟩
    ∧ getDBALevel 85 = ⟨"Rất ồn - Có hại!", "level-very-loud", "#ff4444"⟩
    ∧ getDBALevel 120 = ⟨"Rất ồn - Có hại!", "level-very-loud", "#ff4444"⟩ := by
  refine ⟨fun dba => ?_, by decide, by decide, by decide, by decide, by decide⟩
  by_cases h1 : (dba : WithTop ℚ) < (40 : WithTop ℚ)
  · refine ⟨⟨0, by decide⟩, ?_, ?_, ?_⟩
    · simp [getDBALevel, DBA_LEVELS, h1]
    · simpa [DBA_LEVELS] using h1
    · intro j hj; simp only [Fin.val_mk] at hj; omega
  · by_cases h2 : (dba : WithTop ℚ) < (60 : WithTop ℚ)
    · refine ⟨⟨1, by decide⟩, ?_, ?_, ?_⟩
      · simp [getDBALevel, DBA_LEVELS, h1, h2]
      · simpa [DBA_LEVELS] using h2
      · intro j hj
        rcases j with ⟨jv, hjv⟩
        simp only [Fin.val_mk] at hj
        interval_cases jv
        · simpa [DBA_LEVELS] using h1
    · by_cases h3 : (dba : WithTop ℚ) < (70 : WithTop ℚ)
      · refine ⟨⟨2, by decide⟩, ?_, ?_, ?_⟩
        · simp [getDBALevel, DBA_LEVELS, h1, h2, h3]
        · simpa [DBA_LEVELS] using h3
        · intro j hj
          rcases j with ⟨jv, hjv⟩
          simp only [Fin.val_mk] at hj
          interval_cases jv
          · simpa [DBA_LEVELS] using h1
          · simpa [DBA_LEVELS] using h2
      · by_cases h4 : (dba : WithTop ℚ) < (85 : WithTop ℚ)
        · refine ⟨⟨3, by decide⟩, ?_, ?_, ?_⟩
          · simp only [getDBALevel, DBA_LEVELS]
            rw [List.find?_cons_of_neg _ (by simpa using h1),
              List.find?_cons_of_neg _ (by simpa using h2),
              List.find?_cons_of_neg _ (by simpa using h3),
              List.find?_cons_of_pos _ (by simpa using h4)]
            rfl
          · simpa [DBA_LEVELS] using h4
          · intro j hj
            rcases j with ⟨jv, hjv⟩
            simp only [Fin.val_mk] at hj
            interval_cases jv
            · simpa [DBA_LEVELS] using h1
            · simpa [DBA_LEVELS] using h2
            · simpa [DBA_LEVELS] using h3
        · refine ⟨⟨4, by decide⟩, ?_, ?_, ?_⟩
          · simp only [getDBALevel, DBA_LEVELS]
            rw [List.find?_cons_of_neg _ (by simpa using h1),
              List.find?_cons_of_neg _ (by simpa using h2),
              List.find?_cons_of_neg _ (by simpa using h3),
              List.find?_cons_of_neg _ (by simpa using h4),
              List.find?_cons_of_pos _ (by simp)]
            rfl
          · show (dba : WithTop ℚ) < ⊤
            exact WithTop.coe_lt_top dba
          · intro j hj
            rcases j with ⟨jv, hjv⟩
            simp only [Fin.val_mk] at hj
            interval_cases jv
            · simpa [DBA_LEVELS] using h1
            · simpa [DBA_LEVELS] using h2
            · simpa [DBA_LEVELS] using h3
            · simpa [DBA_LEVELS] using h4

/-- One `calculateDBA` call on an initialized analyser keeps `currentDBA`
inside `[0, 120]` and returns a rounded value inside `[0, 120]`: the update
is a convex combination (weights 0.92 and 0.08) of the previous value and
the clamped reading, which lies in `[20, 120]`. -/
theorem calculateDBA_step_bounds (st : AnalyzerState) (buf : List ℝ)
    (hinit : st.initialized = true) (h0 : 0 ≤ st.currentDBA) (h1 : st.currentDBA ≤ 120) :
    (calculateDBA st buf).2.initialized = true
    ∧ 0 ≤ (calculateDBA st buf).2.currentDBA
    ∧ (calculateDBA st buf).2.currentDBA ≤ 120
    ∧ 0 ≤ (calculateDBA st buf).1
    ∧ (calculateDBA st buf).1 ≤ 120 := by
  have hcl := (clampedDBA_eq_clamp (rmsOf buf)).2
  rw [AUDIO_CONFIG.minDBA, AUDIO_CONFIG.maxDBA] at hcl
  obtain ⟨hcl1, hcl2⟩ := hcl
  simp only [calculateDBA, hinit, if_true]
  have hnew0 : 0 ≤ smoothStep st.currentDBA (clampedDBA (rmsOf buf)) := by
    unfold smoothStep AUDIO_CONFIG.dbaSmoothing
    nlinarith
  have hnew1 : smoothStep st.currentDBA (clampedDBA (rmsOf buf)) ≤ 120 := by
    unfold smoothStep AUDIO_CONFIG.dbaSmoothing
    nlinarith
  refine ⟨by trivial, hnew0, hnew1, ?_, ?_⟩
  · rw [jsRound]
    exact Int.le_floor.mpr (by push_cast; linarith)
  · rw [jsRound]
    have hlt : ⌊smoothStep st.currentDBA (clampedDBA (rmsOf buf)) + 1 / 2⌋ < 121 :=
      Int.floor_lt.mpr (by push_cast; linarith)
    omega

/-- C9: implicit range invariant of the smoothed level. Starting from the
constructor value `currentDBA = 0` on an initialized analyser, after any
sequence of `calculateDBA` calls the stored `currentDBA` is a real number
in `[0, 120]`, and the value returned by the next call is an integer in
`[0, 120]`: each update is a convex combination of the previous value and a
reading clamped into `[20, 120]`, and the silence case has already been
absorbed by the clamp. -/
theorem currentDBA_invariant (bufs : List (List ℝ)) :
    (0 ≤ (bufs.foldl (fun s b => (calculateDBA s b).2)
          (⟨0, 0, 0, true⟩ : AnalyzerState)).currentDBA
      ∧ (bufs.foldl (fun s b => (calculateDBA s b).2)
          (⟨0, 0, 0, true⟩ : AnalyzerState)).currentDBA ≤ 120)
    ∧ ∀ buf : List ℝ,
        0 ≤ (calculateDBA (bufs.foldl (fun s b => (calculateDBA s b).2)
              (⟨0, 0, 0, true⟩ : AnalyzerState)) buf).1
        ∧ (calculateDBA (bufs.foldl (fun s b => (calculateDBA s b).2)
              (⟨0, 0, 0, true⟩ : AnalyzerState)) buf).1 ≤ 120 := by
  have main : ∀ (bs : List (List ℝ)) (st : AnalyzerState),
      st.initialized = true → 0 ≤ st.currentDBA → st.currentDBA ≤ 120 →
      (bs.foldl (fun s b => (calculateDBA s b).2) st).initialized = true
      ∧ 0 ≤ (bs.foldl (fun s b => (calculateDBA s b).2) st).currentDBA
      ∧ (bs.foldl (fun s b => (calculateDBA s b).2) st).currentDBA ≤ 120 := by
    intro bs
    induction bs with
    | nil => intro st hi h0 h1; exact ⟨hi, h0, h1⟩
    | cons b rest ih =>
        intro st hi h0 h1
        have hstep := calculateDBA_step_bounds st b hi h0 h1
        simpa only [List.foldl_cons] using
          ih ((calculateDBA st b).2) hstep.1 hstep.2.1 hstep.2.2.1
  obtain ⟨hi, h0, h1⟩ := main bufs ⟨0, 0, 0, true⟩ rfl le_rfl (by norm_num)
  refine ⟨⟨h0, h1⟩, fun buf => ?_⟩
  have hstep := calculateDBA_step_bounds _ buf hi h0 h1
  exact ⟨hstep.2.2.2.1, hstep.2.2.2.2⟩

/-- No compositor step other than the recording indicator ever emits a
circle command: the dot of the badge is the only circle in the whole
overlay. -/
theorem no_circle_outside_badge (width height scale fontSize padding : ℚ)
    (isPortrait : Bool) (data : OverlayData) (dateStr : String)
    (measure : String → ℚ) (x y r : ℚ) (s : FillStyle) :
    DrawCmd.fillCircle x y r s
        ∉ CanvasOverlay.drawDBABox width height scale fontSize padding isPortrait data measure
    ∧ DrawCmd.fillCircle x y r s
        ∉ (CanvasOverlay.drawInfoBox width height scale fontSize padding isPortrait
            data dateStr).cmds
    ∧ DrawCmd.fillCircle x y r s
        ∉ CanvasOverlay.drawMiniVisualizer width height scale padding isPortrait data
    ∧ DrawCmd.fillCircle x y r s
        ∉ CanvasOverlay.drawWatermark width height scale fontSize := by
  refine ⟨?_, ?_, ?_, ?_⟩
  · simp [CanvasOverlay.drawDBABox, CanvasOverlay.drawLevelPill]
  · simp [CanvasOverlay.drawInfoBox]
  · rcases hf : data.frequencyData with _ | freq <;>
      rcases ht : data.timeData with _ | time <;>
      simp [CanvasOverlay.drawMiniVisualizer, hf, ht]
  · simp [CanvasOverlay.drawWatermark]

/-- C5: recording-badge boundary. In a `draw` call with `isRecording` true
the badge (red pill, white dot, REC text) is emitted exactly when
`recX + recWidth < dbaX - 5 * scale`, with `recX` computed from the stored
info-box bounds and `dbaX` the stored dBA-box left edge; on the other side
of the boundary the indicator step returns no commands at all and the
output is just the other four components, and no circle (the badge dot)
appears anywhere; with `isRecording` false the badge is likewise never
drawn. -/
theorem draw_recording_badge (width height : ℚ) (data : OverlayData)
    (dateStr : String) (measure : String → ℚ) :
    let isPortrait := decide (width < height)
    let si := CanvasOverlay.calculateScale width height isPortrait
    let info := CanvasOverlay.drawInfoBox width height si.scale si.fontSize si.padding
      isPortrait data dateStr
    let recWidth := if isPortrait then OVERLAY_CONFIG.recIndicator.widthPortrait * si.scale
      else OVERLAY_CONFIG.recIndicator.widthLandscape * si.scale
    let recHeight := if isPortrait then OVERLAY_CONFIG.recIndicator.heightPortrait * si.scale
      else OVERLAY_CONFIG.recIndicator.heightLandscape * si.scale
    let recX := info.box.x + info.box.width + 10 * si.scale
    let recY := info.box.y + (info.box.height - recHeight) / 2
    (data.isRecording = true → recX + recWidth < info.dbaX - 5 * si.scale →
        CanvasOverlay.drawRecordingIndicator width height si.scale si.fontSize si.padding
            isPortrait info.box info.dbaX
          = [ DrawCmd.fillRoundRect recX recY recWidth recHeight (recHeight / 2)
                (FillStyle.raw OVERLAY_CONFIG.recIndicator.background),
              DrawCmd.fillCircle (recX + recWidth * 0.3) (recY + recHeight / 2) (4 * si.scale)
                (FillStyle.raw "#ffffff"),
              DrawCmd.fillText (OverlayText.str "REC") (recX + recWidth * 0.65)
                (recY + recHeight / 2) (FillStyle.raw "#ffffff") ]
        ∧ CanvasOverlay.draw width height data dateStr measure
            = CanvasOverlay.drawDBABox width height si.scale si.fontSize si.padding
                isPortrait data measure
              ++ info.cmds
              ++ CanvasOverlay.drawRecordingIndicator width height si.scale si.fontSize
                  si.padding isPortrait info.box info.dbaX
              ++ CanvasOverlay.drawMiniVisualizer width height si.scale si.padding
                  isPortrait data
              ++ CanvasOverlay.drawWatermark width height si.scale si.fontSize)
    ∧ (info.dbaX - 5 * si.scale ≤ recX + recWidth →
        CanvasOverlay.drawRecordingIndicator width height si.scale si.fontSize si.padding
            isPortrait info.box info.dbaX = [])
    ∧ ((data.isRecording = false ∨ info.dbaX - 5 * si.scale ≤ recX + recWidth) →
        CanvasOverlay.draw width height data dateStr measure
            = CanvasOverlay.drawDBABox width height si.scale si.fontSize si.padding
                isPortrait data measure
              ++ info.cmds
              ++ CanvasOverlay.drawMiniVisualizer width height si.scale si.padding
                  isPortrait data
              ++ CanvasOverlay.drawWatermark width height si.scale si.fontSize
        ∧ ∀ x y r : ℚ, ∀ s : FillStyle,
            DrawCmd.fillCircle x y r s ∉ CanvasOverlay.draw width height data dateStr measure) := by
  intro isPortrait si info recWidth recHeight recX recY
  have hri_fit : recX + recWidth < info.dbaX - 5 * si.scale →
      CanvasOverlay.drawRecordingIndicator width height si.scale si.fontSize si.padding
          isPortrait info.box info.dbaX
        = [ DrawCmd.fillRoundRect recX recY recWidth recHeight (recHeight / 2)
              (FillStyle.raw OVERLAY_CONFIG.recIndicator.background),
            DrawCmd.fillCircle (recX + recWidth * 0.3) (recY + recHeight / 2) (4 * si.scale)
              (FillStyle.raw "#ffffff"),
            DrawCmd.fillText (OverlayText.str "REC") (recX + recWidth * 0.65)
              (recY + recHeight / 2) (FillStyle.raw "#ffffff") ] := by
    intro hfit
    rw [CanvasOverlay.drawRecordingIndicator]
    exact if_neg (not_le.mpr hfit)
  have hri_nofit : info.dbaX - 5 * si.scale ≤ recX + recWidth →
      CanvasOverlay.drawRecordingIndicator width height si.scale si.fontSize si.padding
          isPortrait info.box info.dbaX = [] := by
    intro hfit
    rw [CanvasOverlay.drawRecordingIndicator]
    exact if_pos hfit
  refine ⟨fun hrec hfit => ⟨hri_fit hfit, ?_⟩, hri_nofit, fun hcase => ⟨?_, ?_⟩⟩
  · rw [CanvasOverlay.draw, hrec]
    rfl
  · rw [CanvasOverlay.draw]
    rcases hcase with hrec | hfit
    · rw [hrec]
      simp only [Bool.false_eq_true, if_false, List.append_nil]
    · rcases hb : data.isRecording with _ | _
      · simp only [Bool.false_eq_true, if_false, List.append_nil]
      · simp only [if_true, hri_nofit hfit, List.append_nil]
  · intro x y r s hmem
    have hnc := no_circle_outside_badge width height si.scale si.fontSize si.padding
      isPortrait data dateStr measure x y r s
    rw [CanvasOverlay.draw] at hmem
    have hri : (if data.isRecording then
        CanvasOverlay.drawRecordingIndicator width height si.scale si.fontSize si.padding
          isPortrait info.box info.dbaX else []) = [] := by
      rcases hcase with hrec | hfit
      · rw [hrec]; rfl
      · rcases hb : data.isRecording with _ | _
        · rfl
        · simpa [hb] using hri_nofit hfit
    rw [hri] at hmem
    simp only [List.append_nil, List.mem_append] at hmem
    rcases hmem with ((h | h) | h) | h
    · exact hnc.1 h
    · exact hnc.2.1 h
    · exact hnc.2.2.1 h
    · exact hnc.2.2.2 h

/-- Concrete overlay data for exercising the recording-badge boundary:
recording in progress on a 1920 by 1080 landscape surface, no buffers. -/
def c5data : OverlayData :=
  ⟨55, "#ffff00", ⟨"Vừa phải", "level-moderate", "#ffff00"⟩, none, none, true, none, none⟩

/-- Closed witness for `draw_recording_badge`: at 1920 by 1080 the badge
fits (`recX + recWidth = 410 < 1725 = dbaX - 5 * scale`) and the draw
output consists of the fourteen commands of the five components including
the three badge commands. -/
theorem draw_recording_badge_witness :
    (CanvasOverlay.draw 1920 1080 c5data "" (fun _ => 0)).length = 14 := by
  have h := (draw_recording_badge 1920 1080 c5data "" (fun _ => 0)).1 rfl (by
    norm_num [CanvasOverlay.calculateScale, CanvasOverlay.drawInfoBox,
      OVERLAY_CONFIG.baseWidthPortrait, OVERLAY_CONFIG.baseWidthLandscape,
      OVERLAY_CONFIG.minScale, OVERLAY_CONFIG.dbaBox.widthPortrait,
      OVERLAY_CONFIG.dbaBox.widthLandscape, OVERLAY_CONFIG.infoBox.widthPortrait,
      OVERLAY_CONFIG.infoBox.widthLandscape, OVERLAY_CONFIG.infoBox.heightPortrait,
      OVERLAY_CONFIG.infoBox.heightLandscape, OVERLAY_CONFIG.recIndicator.widthPortrait,
      OVERLAY_CONFIG.recIndicator.widthLandscape, OVERLAY_CONFIG.recIndicator.heightPortrait,
      OVERLAY_CONFIG.recIndicator.heightLandscape, max_def, min_def, c5data])
  rw [h.2, h.1]
  simp [CanvasOverlay.drawDBABox, CanvasOverlay.drawLevelPill, CanvasOverlay.drawInfoBox,
    CanvasOverlay.drawMiniVisualizer, CanvasOverlay.drawWatermark, c5data]

/-- C8: independent degradation on missing snapshot data. When either
coordinate is absent, the info box still renders background, border and
clock line, with the placeholder string in place of coordinates; when
either visualizer buffer is absent, the mini-visualizer step draws nothing
at all, and the draw output is exactly the commands of the remaining
components. The draw function is total by construction, so no call can
fail. -/
theorem draw_missing_data (width height : ℚ) (data : OverlayData)
    (dateStr : String) (measure : String → ℚ) :
    let isPortrait := decide (width < height)
    let si := CanvasOverlay.calculateScale width height isPortrait
    let info := CanvasOverlay.drawInfoBox width height si.scale si.fontSize si.padding
      isPortrait data dateStr
    ((data.latitude = none ∨ data.longitude = none) →
        info.cmds =
          [ DrawCmd.fillRoundRect info.box.x info.box.y info.box.width info.box.height
              (OVERLAY_CONFIG.infoBox.borderRadius * si.scale)
              (FillStyle.raw OVERLAY_CONFIG.dbaBox.background),
            DrawCmd.strokeRoundRect info.box.x info.box.y info.box.width info.box.height
              (OVERLAY_CONFIG.infoBox.borderRadius * si.scale)
              (OVERLAY_CONFIG.dbaBox.borderWidth * si.scale)
              (FillStyle.raw OVERLAY_CONFIG.dbaBox.borderColor),
            DrawCmd.fillText (OverlayText.str ("⏱ " ++ dateStr)) (info.box.x + 8 * si.scale)
              (info.box.y + info.box.height * 0.35) (FillStyle.raw "#ffffff"),
            DrawCmd.fillText (OverlayText.str "⌖ N/A") (info.box.x + 8 * si.scale)
              (info.box.y + info.box.height * 0.7) (FillStyle.raw "#aaaaaa") ])
    ∧ ((data.frequencyData = none ∨ data.timeData = none) →
        CanvasOverlay.drawMiniVisualizer width height si.scale si.padding isPortrait data = []
        ∧ CanvasOverlay.draw width height data dateStr measure
            = CanvasOverlay.drawDBABox width height si.scale si.fontSize si.padding
                isPortrait data measure
              ++ info.cmds
              ++ (if data.isRecording then
                    CanvasOverlay.drawRecordingIndicator width height si.scale si.fontSize
                      si.padding isPortrait info.box info.dbaX
                  else [])
              ++ CanvasOverlay.drawWatermark width height si.scale si.fontSize) := by
  intro isPortrait si info
  constructor
  · intro hcase
    have hloc : CanvasOverlay.locationStr data.latitude data.longitude = "⌖ N/A" := by
      rcases hla : data.latitude with _ | la
      · rfl
      · rcases hcase with hc | hc
        · rw [hla] at hc; exact absurd hc (by simp)
        · rw [hc]; rfl
    show (CanvasOverlay.drawInfoBox width height si.scale si.fontSize si.padding
      isPortrait data dateStr).cmds = _
    simp only [CanvasOverlay.drawInfoBox, hloc]
    rfl
  · intro hcase
    have hmv : CanvasOverlay.drawMiniVisualizer width height si.scale si.padding
        isPortrait data = [] := by
      rcases hf : data.frequencyData with _ | freq
      · rw [CanvasOverlay.drawMiniVisualizer, hf]
      · rcases hcase with hc | hc
        · rw [hf] at hc; exact absurd hc (by simp)
        · rw [CanvasOverlay.drawMiniVisualizer, hf, hc]
    refine ⟨hmv, ?_⟩
    rw [CanvasOverlay.draw]
    rw [hmv]
    simp only [List.append_nil]

/-- Concrete overlay data with no coordinates and no spectrum buffer. -/
def c8data : OverlayData :=
  ⟨55, "#ffff00", ⟨"Vừa phải", "level-moderate", "#ffff00"⟩, none, none, false, none,
    some [1, 2]⟩

/-- Closed witness for `draw_missing_data`: with both coordinates and the
spectrum buffer absent and recording off, the draw output is exactly the
eleven commands of the dBA box, the info box (its last command being the
placeholder text), and the watermark. -/
theorem draw_missing_data_witness :
    (CanvasOverlay.draw 1920 1080 c8data "" (fun _ => 0)).length = 11 := by
  have h := (draw_missing_data 1920 1080 c8data "" (fun _ => 0)).2 (Or.inl rfl)
  have hinfo := (draw_missing_data 1920 1080 c8data "" (fun _ => 0)).1 (Or.inl rfl)
  rw [h.2, hinfo]
  simp [CanvasOverlay.drawDBABox, CanvasOverlay.drawLevelPill, CanvasOverlay.drawWatermark,
    c8data]

/-- Every digit produced by the fueled decimal expansion is below ten. -/
theorem natDigitsAux_lt (fuel : ℕ) : ∀ n, ∀ d ∈ natDigitsAux fuel n, d < 10 := by
  induction fuel with
  | zero => intro n d hd; simp [natDigitsAux] at hd
  | succ f ih =>
      intro n d hd
      rw [natDigitsAux] at hd
      by_cases h : n = 0
      · simp [h] at hd
      · rw [if_neg h] at hd
        rcases List.mem_cons.mp hd with h1 | h1
        · subst h1; exact Nat.mod_lt _ (by norm_num)
        · exact ih _ d h1

/-- A number below the k-th power of ten has at most k decimal digits. -/
theorem natDigitsAux_length_le (fuel : ℕ) : ∀ n k, n ≤ fuel → n < 10 ^ k →
    (natDigitsAux fuel n).length ≤ k := by
  induction fuel with
  | zero => intro n k _ _; simp [natDigitsAux]
  | succ f ih =>
      intro n k hfuel hn
      rw [natDigitsAux]
      by_cases h : n = 0
      · simp [h]
      · rw [if_neg h]
        simp only [List.length_cons]
        rcases k with _ | k'
        · simp at hn; omega
        · have hdiv : n / 10 < 10 ^ k' := by
            rw [Nat.div_lt_iff_lt_mul (by norm_num : 0 < 10)]
            calc n < 10 ^ (k' + 1) := hn
            _ = 10 ^ k' * 10 := by ring
          have hfe : n / 10 ≤ f := by
            have := Nat.div_lt_self (Nat.pos_of_ne_zero h) (by norm_num : 1 < 10)
            omega
          have := ih (n / 10) k' hfe hdiv
          omega

/-- A rendered natural number contains no decimal point. -/
theorem natToString_chars (n : ℕ) : ∀ c ∈ (natToString n).data, c ≠ '.' := by
  rw [natToString]
  by_cases h : n = 0
  · rw [if_pos h]; decide
  · rw [if_neg h]
    intro c hc
    have hc' : c ∈ (natDigitsAux n n).reverse.map digitChar := hc
    rcases List.mem_map.mp hc' with ⟨d, hd, rfl⟩
    have hd10 : d < 10 := natDigitsAux_lt n n d (List.mem_reverse.mp hd)
    interval_cases d <;> decide

/-- A rendered natural number below the k-th power of ten (k positive) has
at most k characters. -/
theorem natToString_length_le (n k : ℕ) (h : n < 10 ^ k) (hk : 1 ≤ k) :
    (natToString n).length ≤ k := by
  rw [natToString]
  by_cases h0 : n = 0
  · rw [if_pos h0]; simpa using hk
  · rw [if_neg h0]
    have := natDigitsAux_length_le n n k le_rfl h
    simpa [String.length] using this

/-- Left-padding with zeros yields exactly the requested number of
characters, none of which is a decimal point. -/
theorem padZeros_spec (d : ℕ) (s : String) (hlen : s.length ≤ d)
    (hchars : ∀ c ∈ s.data, c ≠ '.') :
    (padZeros d s).data.length = d ∧ ∀ c ∈ (padZeros d s).data, c ≠ '.' := by
  constructor
  · show (List.replicate (d - s.length) '0' ++ s.data).length = d
    rw [List.length_append, List.length_replicate]
    have : s.length = s.data.length := rfl
    omega
  · intro c hc
    have hc' : c ∈ List.replicate (d - s.length) '0' ++ s.data := hc
    rcases List.mem_append.mp hc' with h | h
    · have := List.eq_of_mem_replicate h
      subst this; decide
    · exact hchars c h

/-- The take-while run of a list built from a satisfying block, a failing
sentinel, and a tail, is exactly the block. -/
theorem takeWhile_append_sentinel (p : Char → Bool) (l₁ l₂ : List Char)
    (h1 : ∀ c ∈ l₁, p c = true) (hb : p '.' = false) :
    List.takeWhile p (l₁ ++ '.' :: l₂) = l₁ := by
  induction l₁ with
  | nil => simp [List.takeWhile_cons, hb]
  | cons a t ih =>
      have ha := h1 a (List.mem_cons_self a t)
      simp [List.takeWhile_cons, ha, ih (fun c hc => h1 c (List.mem_cons_of_mem _ hc))]

/-- Appending a point and a six-character point-free block to any prefix
yields a string with exactly six digits after the (last) point. -/
theorem fracDigits_concat (pre padStr : String)
    (hlen : padStr.data.length = 6) (hchars : ∀ c ∈ padStr.data, c ≠ '.') :
    fracDigits (pre ++ ("." ++ padStr)) = 6 := by
  have hdata : (pre ++ ("." ++ padStr)).data = pre.data ++ '.' :: padStr.data := rfl
  rw [fracDigits]
  have hmem : '.' ∈ (pre ++ ("." ++ padStr)).data := by
    rw [hdata]; simp
  rw [if_pos hmem, hdata]
  have hrev : (pre.data ++ '.' :: padStr.data).reverse
      = padStr.data.reverse ++ '.' :: pre.data.reverse := by
    simp [List.reverse_append, List.reverse_cons, List.append_assoc]
  rw [hrev, takeWhile_append_sentinel]
  · rw [List.length_reverse, hlen]
  · intro c hc
    exact decide_eq_true (hchars c (List.mem_reverse.mp hc))
  · decide

/-- A coordinate formatted by `toFixed(6)` always carries exactly six
digits after the decimal point. -/
theorem fracDigits_toFixed6 (x : ℚ) : fracDigits (toFixed 6 x) = 6 := by
  rw [toFixed]
  simp only [show ((6:ℕ) = 0) = False by simp, if_false]
  have hfrac : (⌊x * 10 ^ 6 + 1 / 2⌋ : ℤ).natAbs % 10 ^ 6 < 10 ^ 6 :=
    Nat.mod_lt _ (by norm_num)
  have hlen : (natToString ((⌊x * 10 ^ 6 + 1 / 2⌋ : ℤ).natAbs % 10 ^ 6)).length ≤ 6 :=
    natToString_length_le _ 6 hfrac (by norm_num)
  have hp := padZeros_spec 6 (natToString ((⌊x * 10 ^ 6 + 1 / 2⌋ : ℤ).natAbs % 10 ^ 6))
    hlen (natToString_chars _)
  exact fracDigits_concat _ _ hp.1 hp.2

/-- C6 counterexample: the coordinates the pipeline stores and the overlay
draws are `toFixed(6)` strings, so at the concrete position
(10.762622, 106.660172) the rendered info-box location text carries six
digits after each decimal point, not two. -/
theorem gps_two_decimals_counterexample :
    GeolocationManager.handleSuccess 10.762622 106.660172
        = (some "10.762622", some "106.660172")
    ∧ CanvasOverlay.locationStr (some "10.762622") (some "106.660172")
        = "⌖ 10.762622, 106.660172"
    ∧ fracDigits "10.762622" ≠ 2
    ∧ fracDigits "106.660172" ≠ 2 := by
  refine ⟨?_, by decide, by decide, by decide⟩
  rw [GeolocationManager.handleSuccess]
  have h1 : toFixed 6 (10.762622 : ℚ) = "10.762622" := by
    have h : (⌊(10.762622 : ℚ) * 10 ^ 6 + 1 / 2⌋ : ℤ) = 10762622 := by
      rw [Int.floor_eq_iff] <;> norm_num
    simp only [toFixed, h]
    decide
  have h2 : toFixed 6 (106.660172 : ℚ) = "106.660172" := by
    have h : (⌊(106.660172 : ℚ) * 10 ^ 6 + 1 / 2⌋ : ℤ) = 106660172 := by
      rw [Int.floor_eq_iff] <;> norm_num
    simp only [toFixed, h]
    decide
  rw [h1, h2]

/-- C6 (amended): the GPS coordinate string drawn in the overlay info box
carries each coordinate with exactly six digits after the decimal point
(the `toFixed(6)` format stored by the geolocation manager) whenever both
coordinates are present, and is the literal not-available marker when they
are absent. -/
theorem gps_six_decimals (lat lon : ℚ) :
    GeolocationManager.handleSuccess lat lon
        = (some (toFixed 6 lat), some (toFixed 6 lon))
    ∧ fracDigits (toFixed 6 lat) = 6
    ∧ fracDigits (toFixed 6 lon) = 6
    ∧ CanvasOverlay.locationStr (some (toFixed 6 lat)) (some (toFixed 6 lon))
        = "⌖ " ++ toFixed 6 lat ++ ", " ++ toFixed 6 lon
    ∧ CanvasOverlay.locationStr none none = "⌖ N/A" :=
  ⟨rfl, fracDigits_toFixed6 lat, fracDigits_toFixed6 lon, rfl, rfl⟩

end DBANoiseMeter
